import Mathlib

/-!
Shallow embedding of read_energy_meters.py: a Modbus-to-MQTT bridge that
polls two EV charging points, decodes blocks of 16-bit holding registers
into typed numeric values, scales them to engineering units, derives a
power factor, and publishes each metric.  Real-valued quantities (Python
floats produced by dividing by 1000.0) are modelled exactly over ℚ.
-/

namespace CharX

/-- A Modbus client is modelled by its read_holding_registers behaviour:
given an address and a register count it returns the register words, or
none for an error response (rr.isError()) or a transport exception. -/
structure ModbusClient where
  read : Nat → Nat → Option (List Nat)

/-- Register offsets from a charging point base address (REGISTER_MAP). -/
def REGISTER_MAP : List (String × Nat) :=
  [("voltage_l1", 232), ("voltage_l2", 234), ("voltage_l3", 236),
   ("current_l1", 238), ("current_l2", 240), ("current_l3", 242),
   ("power", 244), ("reactive_power", 246), ("apparent_power", 248),
   ("energy_total", 250), ("energy_reactive", 254), ("energy_apparent", 258),
   ("current_setting", 297), ("vehicle_status", 299)]

/-- Offset lookup, REGISTER_MAP[k] in the Python source. -/
def regOffset (k : String) : Nat := (REGISTER_MAP.lookup k).getD 0

/-- read_u32: read two registers and return (registers[0] << 16) | registers[1].
A failed response gives none; a response shorter than two registers raises
IndexError in Python, which the handler turns into none as well. -/
def read_u32 (client : ModbusClient) (address : Nat) : Option Nat :=
  match client.read address 2 with
  | none => none
  | some regs =>
    match regs.get? 0, regs.get? 1 with
    | some r0, some r1 => some ((r0 <<< 16) ||| r1)
    | _, _ => none

/-- Reinterpretation of a 32-bit unsigned pattern as two's-complement signed,
struct.unpack of '>i' applied to struct.pack of '>I'. -/
def toI32 (u : Nat) : Int := if u < 2 ^ 31 then (u : Int) else (u : Int) - 2 ^ 32

/-- read_i32: compose as unsigned 32-bit, then reinterpret the bit pattern as
signed.  struct.pack of '>I' raises on a value outside [0, 2^32), and that
exception is caught and turned into none, hence the range guard. -/
def read_i32 (client : ModbusClient) (address : Nat) : Option Int :=
  match client.read address 2 with
  | none => none
  | some regs =>
    match regs.get? 0, regs.get? 1 with
    | some r0, some r1 =>
      let unsigned := (r0 <<< 16) ||| r1
      if unsigned < 2 ^ 32 then some (toI32 unsigned) else none
    | _, _ => none

/-- read_u64: read four registers and compose big-endian. -/
def read_u64 (client : ModbusClient) (address : Nat) : Option Nat :=
  match client.read address 4 with
  | none => none
  | some regs =>
    match regs.get? 0, regs.get? 1, regs.get? 2, regs.get? 3 with
    | some r0, some r1, some r2, some r3 =>
      some ((r0 <<< 48) ||| (r1 <<< 32) ||| (r2 <<< 16) ||| r3)
    | _, _, _, _ => none

/-- read_u16: read a single register. -/
def read_u16 (client : ModbusClient) (address : Nat) : Option Nat :=
  match client.read address 1 with
  | none => none
  | some regs => regs.get? 0

/-- Bitwise or is addition when the summands occupy disjoint bit ranges. -/
lemma lor_eq_add {k a b : Nat} (ha : 2 ^ k ∣ a) (hb : b < 2 ^ k) :
    a ||| b = a + b := by
  obtain ⟨m, rfl⟩ := ha
  exact (Nat.mul_add_lt_is_or hb m).symm

/-- Composing a high word with a low word below 2^16 is plain arithmetic. -/
lemma shiftLeft16_lor (r0 r1 : Nat) (h1 : r1 < 2 ^ 16) :
    (r0 <<< 16) ||| r1 = r0 * 2 ^ 16 + r1 := by
  rw [Nat.shiftLeft_eq, lor_eq_add (dvd_mul_left _ _) h1]

/-- The four-register big-endian composition in arithmetic form. -/
lemma u64_chain (r0 r1 r2 r3 : Nat) (h1 : r1 < 2 ^ 16) (h2 : r2 < 2 ^ 16)
    (h3 : r3 < 2 ^ 16) :
    (r0 <<< 48) ||| (r1 <<< 32) ||| (r2 <<< 16) ||| r3
      = r0 * 2 ^ 48 + r1 * 2 ^ 32 + r2 * 2 ^ 16 + r3 := by
  have e0 : r0 <<< 48 = r0 * 2 ^ 48 := Nat.shiftLeft_eq r0 48
  have e1 : r1 <<< 32 = r1 * 2 ^ 32 := Nat.shiftLeft_eq r1 32
  have e2 : r2 <<< 16 = r2 * 2 ^ 16 := Nat.shiftLeft_eq r2 16
  have b1 : r1 * 2 ^ 32 < 2 ^ 48 := by
    calc r1 * 2 ^ 32 < 2 ^ 16 * 2 ^ 32 := by
          exact mul_lt_mul_of_pos_right h1 (by positivity)
      _ = 2 ^ 48 := by norm_num
  have b2 : r2 * 2 ^ 16 < 2 ^ 32 := by
    calc r2 * 2 ^ 16 < 2 ^ 16 * 2 ^ 16 := by
          exact mul_lt_mul_of_pos_right h2 (by positivity)
      _ = 2 ^ 32 := by norm_num
  rw [e0, e1, e2]
  rw [lor_eq_add (k := 48) (dvd_mul_left _ _) b1]
  rw [lor_eq_add (k := 32) (dvd_add (Dvd.dvd.mul_left (pow_dvd_pow 2 (by norm_num)) r0)
        (dvd_mul_left _ _)) b2]
  rw [lor_eq_add (k := 16) (dvd_add (dvd_add
        (Dvd.dvd.mul_left (pow_dvd_pow 2 (by norm_num)) r0)
        (Dvd.dvd.mul_left (pow_dvd_pow 2 (by norm_num)) r1))
        (dvd_mul_left _ _)) h3]

/-- C1: a successful two-register read [r0, r1] with each word below 2^16
decodes through read_u32 to exactly (r0 << 16) | r1, which equals the
big-endian arithmetic composition r0 * 2^16 + r1; a successful
four-register read [r0, r1, r2, r3] decodes through read_u64 to exactly
(r0 << 48) | (r1 << 32) | (r2 << 16) | r3, which equals
r0 * 2^48 + r1 * 2^32 + r2 * 2^16 + r3. -/
theorem u32_u64_compose (client : ModbusClient) (address : Nat) :
    (∀ r0 r1, client.read address 2 = some [r0, r1] →
      r0 < 2 ^ 16 → r1 < 2 ^ 16 →
      read_u32 client address = some ((r0 <<< 16) ||| r1) ∧
      (r0 <<< 16) ||| r1 = r0 * 2 ^ 16 + r1) ∧
    (∀ r0 r1 r2 r3, client.read address 4 = some [r0, r1, r2, r3] →
      r0 < 2 ^ 16 → r1 < 2 ^ 16 → r2 < 2 ^ 16 → r3 < 2 ^ 16 →
      read_u64 client address
          = some ((r0 <<< 48) ||| (r1 <<< 32) ||| (r2 <<< 16) ||| r3) ∧
      (r0 <<< 48) ||| (r1 <<< 32) ||| (r2 <<< 16) ||| r3
          = r0 * 2 ^ 48 + r1 * 2 ^ 32 + r2 * 2 ^ 16 + r3) := by
  constructor
  · intro r0 r1 hread _ h1
    refine ⟨?_, shiftLeft16_lor r0 r1 h1⟩
    simp [read_u32, hread]
  · intro r0 r1 r2 r3 hread _ h1 h2 h3
    refine ⟨?_, u64_chain r0 r1 r2 r3 h1 h2 h3⟩
    simp [read_u64, hread]

/-- Concrete instantiation of the composition theorem: the client returns
[0x0003, 0x7A50] for a two-register read and [0, 0, 1, 57920] for a
four-register read, and the decoders produce 230480 and 123456. -/
def composeClient : ModbusClient :=
  { read := fun _ count =>
      if count = 2 then some [3, 33872]
      else if count = 4 then some [0, 0, 1, 57920]
      else none }

theorem u32_u64_compose_witness :
    read_u32 composeClient 1232 = some 230480 ∧
    read_u64 composeClient 1250 = some 123456 := by
  have h := u32_u64_compose composeClient 1232
  have h32 := h.1 3 33872 (by decide) (by decide) (by decide)
  have h' := u32_u64_compose composeClient 1250
  have h64 := h'.2 0 0 1 57920 (by decide) (by decide) (by decide) (by decide)
      (by decide)
  refine ⟨?_, ?_⟩
  · rw [h32.1]; decide
  · rw [h64.1]; decide

/-- C2: signed 32-bit decode round-trips through two's complement: for any
integer n in [-2^31, 2^31), splitting the 32-bit pattern n mod 2^32 into a
high and a low 16-bit register and reading them back through read_i32
returns exactly n. -/
theorem i32_round_trip (client : ModbusClient) (address : Nat) (n : Int)
    (hlo : -2 ^ 31 ≤ n) (hhi : n < 2 ^ 31)
    (hread : client.read address 2 =
      some [(n % 2 ^ 32).toNat / 2 ^ 16, (n % 2 ^ 32).toNat % 2 ^ 16]) :
    read_i32 client address = some n := by
  have hmod : ((n % 2 ^ 32).toNat : Int) = n % 2 ^ 32 := by
    refine Int.toNat_of_nonneg (Int.emod_nonneg n (by norm_num))
  have hu32 : (n % 2 ^ 32).toNat < 2 ^ 32 := by omega
  have hcomp : (((n % 2 ^ 32).toNat / 2 ^ 16) <<< 16) ||| (n % 2 ^ 32).toNat % 2 ^ 16
      = (n % 2 ^ 32).toNat := by
    rw [shiftLeft16_lor _ _ (Nat.mod_lt _ (by norm_num))]
    omega
  simp only [read_i32, hread, List.get?]
  rw [hcomp, if_pos hu32]
  unfold toI32
  by_cases hcase : (n % 2 ^ 32).toNat < 2 ^ 31
  · rw [if_pos hcase]; congr 1; omega
  · rw [if_neg hcase]; congr 1; omega

/-- Client for the signed round-trip witness: the two registers hold the
two's-complement pattern of -5, namely 0xFFFF and 0xFFFB. -/
def i32Client : ModbusClient :=
  { read := fun _ count => if count = 2 then some [65535, 65531] else none }

theorem i32_round_trip_witness :
    -2 ^ 31 ≤ (-5 : Int) ∧ (-5 : Int) < 2 ^ 31 ∧
      read_i32 i32Client 1246 = some (-5) :=
  ⟨by norm_num, by norm_num,
    i32_round_trip i32Client 1246 (-5) (by norm_num) (by norm_num) (by decide)⟩

/-! ### Charging point reader -/

/-- One conditional dict insertion: the Python reader only stores a key when
the walrus-bound read is not None. -/
def entry (k : String) (v : Option ℚ) : List (String × ℚ) :=
  match v with
  | none => []
  | some x => [(k, x)]

/-- The metric dict built by read_charging_point before the Cosphi step, in
source order: three voltages, three currents, the three powers, then the
imported energy.  Scaled reads divide by 1000, Import is left unscaled. -/
def chargingPointBody (client : ModbusClient) (base : Nat) : List (String × ℚ) :=
  entry "Voltage/L1"
      ((read_u32 client (base + regOffset "voltage_l1")).map (fun (v : ℕ) => (v : ℚ) / 1000)) ++
  entry "Voltage/L2"
      ((read_u32 client (base + regOffset "voltage_l2")).map (fun (v : ℕ) => (v : ℚ) / 1000)) ++
  entry "Voltage/L3"
      ((read_u32 client (base + regOffset "voltage_l3")).map (fun (v : ℕ) => (v : ℚ) / 1000)) ++
  entry "Current/L1"
      ((read_u32 client (base + regOffset "current_l1")).map (fun (v : ℕ) => (v : ℚ) / 1000)) ++
  entry "Current/L2"
      ((read_u32 client (base + regOffset "current_l2")).map (fun (v : ℕ) => (v : ℚ) / 1000)) ++
  entry "Current/L3"
      ((read_u32 client (base + regOffset "current_l3")).map (fun (v : ℕ) => (v : ℚ) / 1000)) ++
  entry "Power"
      ((read_u32 client (base + regOffset "power")).map (fun (v : ℕ) => (v : ℚ) / 1000)) ++
  entry "ReactivePower"
      ((read_i32 client (base + regOffset "reactive_power")).map (fun (v : ℤ) => (v : ℚ) / 1000)) ++
  entry "ApparentPower"
      ((read_u32 client (base + regOffset "apparent_power")).map (fun (v : ℕ) => (v : ℚ) / 1000)) ++
  entry "Import"
      ((read_u64 client (base + regOffset "energy_total")).map (fun (v : ℕ) => (v : ℚ)))

/-- The Cosphi step: if Power and ApparentPower are both in the dict and the
stored ApparentPower is strictly positive, append their quotient. -/
def cosphiExtend (d : List (String × ℚ)) : List (String × ℚ) :=
  match List.lookup "Power" d, List.lookup "ApparentPower" d with
  | some p, some a => if 0 < a then d ++ [("Cosphi", p / a)] else d
  | _, _ => d

/-- The complete metric dict of read_charging_point. -/
def chargingPointData (client : ModbusClient) (base : Nat) : List (String × ℚ) :=
  cosphiExtend (chargingPointBody client base)

/-- read_charging_point: the Python function returns the dict when it is
non-empty and None otherwise (return data if data else None). -/
def read_charging_point (client : ModbusClient) (base : Nat) :
    Option (List (String × ℚ)) :=
  let data := chargingPointData client base
  if data.isEmpty then none else some data

/-! ### Publisher and poll loop -/

/-- An MQTT publish call: topic, numeric payload, retain flag. -/
structure Message where
  topic : String
  payload : ℚ
  retain : Bool
deriving DecidableEq

/-- Default of the MQTT_TOPIC_PREFIX environment variable. -/
def MQTT_TOPIC_ROOT : String := "klskmp/metering/blitz"

/-- publish_data: one message per metric, topic prefix/name/key. -/
def publish_data (cp_name : String) (data : List (String × ℚ)) : List Message :=
  let base_topic := MQTT_TOPIC_ROOT ++ "/" ++ cp_name
  data.map (fun kv =>
    { topic := base_topic ++ "/" ++ kv.1, payload := kv.2, retain := false })

/-- Truthiness of the reader result, the main loop test (if data:). -/
def dataTruthy : Option (List (String × ℚ)) → Bool
  | none => false
  | some d => !d.isEmpty

/-- Per-point body of the main loop: publish exactly when the reader result
is truthy, else no publish call happens. -/
def pointPublish (cp_name : String) (res : Option (List (String × ℚ))) :
    List Message :=
  match res with
  | none => []
  | some d => if d.isEmpty then [] else publish_data cp_name d

/-- max_consecutive_failures in main. -/
def max_consecutive_failures : Nat := 5

/-- Observable outcome of one iteration of the while loop in main. -/
structure CycleResult where
  counter : Nat
  forcedClose : Bool
  published : List (String × List Message)
  sleptCooldown : Bool
deriving DecidableEq

/-- One iteration of the main polling loop, given the incoming
consecutive-failure counter, whether ensure_connection succeeded, and the
reader result for each charging point in iteration order. -/
def mainCycle (counter : Nat) (guardianOk : Bool)
    (results : List (String × Option (List (String × ℚ)))) : CycleResult :=
  if guardianOk = false then
    { counter := counter, forcedClose := false, published := [],
      sleptCooldown := true }
  else
    let pubs := results.map (fun nr => (nr.1, pointPublish nr.1 nr.2))
    let success := results.any (fun nr => dataTruthy nr.2)
    if success = false then
      if max_consecutive_failures ≤ counter + 1 then
        { counter := 0, forcedClose := true, published := pubs,
          sleptCooldown := false }
      else
        { counter := counter + 1, forcedClose := false, published := pubs,
          sleptCooldown := false }
    else
      { counter := 0, forcedClose := false, published := pubs,
        sleptCooldown := false }

/-- Accumulator step for a run of cycles: carry the counter forward and
count how many forced closes happened. -/
def cycleFold (acc : Nat × Nat)
    (s : Bool × List (String × Option (List (String × ℚ)))) : Nat × Nat :=
  let r := mainCycle acc.1 s.1 s.2
  (r.counter, acc.2 + (if r.forcedClose then 1 else 0))

/-- Folding the loop over a list of cycles from a fresh start, tracking the
counter and how many forced closes happened. -/
def runCounter (steps : List (Bool × List (String × Option (List (String × ℚ))))) :
    Nat × Nat :=
  steps.foldl cycleFold (0, 0)

/-! ### Association list lookup helpers -/

lemma lookup_entry_eq (k : String) (v : Option ℚ) (l : List (String × ℚ))
    (hnone : List.lookup k l = none) :
    List.lookup k (entry k v ++ l) = v := by
  cases v <;> simp [entry, List.lookup, hnone]

lemma lookup_entry_ne (k k' : String) (v : Option ℚ) (l : List (String × ℚ))
    (h : k ≠ k') :
    List.lookup k (entry k' v ++ l) = List.lookup k l := by
  have hb : (k == k') = false := beq_eq_false_iff_ne.mpr h
  cases v <;> simp [entry, List.lookup, hb]

lemma lookup_entry_single (k k' : String) (v : Option ℚ) :
    List.lookup k (entry k' v) = if k = k' then v else none := by
  by_cases h : k = k'
  · subst h; cases v <;> simp [entry, List.lookup]
  · have hb : (k == k') = false := beq_eq_false_iff_ne.mpr h
    cases v <;> simp [entry, List.lookup, hb, h]

lemma entry_eq_nil (k : String) (v : Option ℚ) : entry k v = [] ↔ v = none := by
  cases v <;> simp [entry]

lemma lookup_entry_append (k : String) (v : Option ℚ) (l : List (String × ℚ)) :
    List.lookup k (entry k v ++ l) = v.or (List.lookup k l) := by
  cases v <;> simp [entry, List.lookup]

lemma lookup_append_or (k : String) (l1 l2 : List (String × ℚ)) :
    List.lookup k (l1 ++ l2) = (List.lookup k l1).or (List.lookup k l2) := by
  induction l1 with
  | nil => simp [List.lookup]
  | cons p t ih =>
    rcases p with ⟨k', v⟩
    simp only [List.cons_append, List.lookup]
    cases k == k' <;> simp [ih]

lemma lookup_body_voltage_l1 (client : ModbusClient) (base : Nat) :
    List.lookup "Voltage/L1" (chargingPointBody client base)
      = (read_u32 client (base + 232)).map (fun (v : ℕ) => (v : ℚ) / 1000) := by
  simp [chargingPointBody, regOffset, REGISTER_MAP, List.lookup,
    lookup_entry_ne, lookup_entry_append, lookup_entry_single, Option.or_none]

lemma lookup_body_voltage_l2 (client : ModbusClient) (base : Nat) :
    List.lookup "Voltage/L2" (chargingPointBody client base)
      = (read_u32 client (base + 234)).map (fun (v : ℕ) => (v : ℚ) / 1000) := by
  simp [chargingPointBody, regOffset, REGISTER_MAP, List.lookup,
    lookup_entry_ne, lookup_entry_append, lookup_entry_single, Option.or_none]

lemma lookup_body_voltage_l3 (client : ModbusClient) (base : Nat) :
    List.lookup "Voltage/L3" (chargingPointBody client base)
      = (read_u32 client (base + 236)).map (fun (v : ℕ) => (v : ℚ) / 1000) := by
  simp [chargingPointBody, regOffset, REGISTER_MAP, List.lookup,
    lookup_entry_ne, lookup_entry_append, lookup_entry_single, Option.or_none]

lemma lookup_body_current_l1 (client : ModbusClient) (base : Nat) :
    List.lookup "Current/L1" (chargingPointBody client base)
      = (read_u32 client (base + 238)).map (fun (v : ℕ) => (v : ℚ) / 1000) := by
  simp [chargingPointBody, regOffset, REGISTER_MAP, List.lookup,
    lookup_entry_ne, lookup_entry_append, lookup_entry_single, Option.or_none]

lemma lookup_body_current_l2 (client : ModbusClient) (base : Nat) :
    List.lookup "Current/L2" (chargingPointBody client base)
      = (read_u32 client (base + 240)).map (fun (v : ℕ) => (v : ℚ) / 1000) := by
  simp [chargingPointBody, regOffset, REGISTER_MAP, List.lookup,
    lookup_entry_ne, lookup_entry_append, lookup_entry_single, Option.or_none]

lemma lookup_body_current_l3 (client : ModbusClient) (base : Nat) :
    List.lookup "Current/L3" (chargingPointBody client base)
      = (read_u32 client (base + 242)).map (fun (v : ℕ) => (v : ℚ) / 1000) := by
  simp [chargingPointBody, regOffset, REGISTER_MAP, List.lookup,
    lookup_entry_ne, lookup_entry_append, lookup_entry_single, Option.or_none]

lemma lookup_body_power (client : ModbusClient) (base : Nat) :
    List.lookup "Power" (chargingPointBody client base)
      = (read_u32 client (base + 244)).map (fun (v : ℕ) => (v : ℚ) / 1000) := by
  simp [chargingPointBody, regOffset, REGISTER_MAP, List.lookup,
    lookup_entry_ne, lookup_entry_append, lookup_entry_single, Option.or_none]

lemma lookup_body_reactive (client : ModbusClient) (base : Nat) :
    List.lookup "ReactivePower" (chargingPointBody client base)
      = (read_i32 client (base + 246)).map (fun (v : ℤ) => (v : ℚ) / 1000) := by
  simp [chargingPointBody, regOffset, REGISTER_MAP, List.lookup,
    lookup_entry_ne, lookup_entry_append, lookup_entry_single, Option.or_none]

lemma lookup_body_apparent (client : ModbusClient) (base : Nat) :
    List.lookup "ApparentPower" (chargingPointBody client base)
      = (read_u32 client (base + 248)).map (fun (v : ℕ) => (v : ℚ) / 1000) := by
  simp [chargingPointBody, regOffset, REGISTER_MAP, List.lookup,
    lookup_entry_ne, lookup_entry_append, lookup_entry_single, Option.or_none]

lemma lookup_body_import (client : ModbusClient) (base : Nat) :
    List.lookup "Import" (chargingPointBody client base)
      = (read_u64 client (base + 250)).map (fun (v : ℕ) => (v : ℚ)) := by
  simp [chargingPointBody, regOffset, REGISTER_MAP, List.lookup,
    lookup_entry_ne, lookup_entry_append, lookup_entry_single, Option.or_none]

lemma lookup_body_cosphi (client : ModbusClient) (base : Nat) :
    List.lookup "Cosphi" (chargingPointBody client base) = none := by
  simp [chargingPointBody, regOffset, REGISTER_MAP, List.lookup,
    lookup_entry_ne, lookup_entry_append, lookup_entry_single, Option.or_none]

lemma lookup_cosphiExtend_ne (k : String) (d : List (String × ℚ))
    (h : k ≠ "Cosphi") :
    List.lookup k (cosphiExtend d) = List.lookup k d := by
  have hb : (k == "Cosphi") = false := beq_eq_false_iff_ne.mpr h
  unfold cosphiExtend
  cases hP : List.lookup "Power" d with
  | none => cases hA : List.lookup "ApparentPower" d <;> rfl
  | some p =>
    cases hA : List.lookup "ApparentPower" d with
    | none => rfl
    | some a =>
      dsimp only
      by_cases h0 : 0 < a
      · rw [if_pos h0, lookup_append_or]
        simp [List.lookup, hb, Option.or_none]
      · rw [if_neg h0]

lemma lookup_cosphiExtend_cosphi (d : List (String × ℚ)) (p a : ℚ)
    (hnone : List.lookup "Cosphi" d = none)
    (hP : List.lookup "Power" d = some p)
    (hA : List.lookup "ApparentPower" d = some a) :
    List.lookup "Cosphi" (cosphiExtend d)
      = if 0 < a then some (p / a) else none := by
  unfold cosphiExtend
  rw [hP, hA]
  dsimp only
  by_cases h0 : 0 < a
  · rw [if_pos h0, if_pos h0, lookup_append_or, hnone]
    simp [List.lookup]
  · rw [if_neg h0, if_neg h0, hnone]

lemma cosphiExtend_of_none (d : List (String × ℚ))
    (h : List.lookup "Power" d = none ∨ List.lookup "ApparentPower" d = none) :
    cosphiExtend d = d := by
  unfold cosphiExtend
  cases hP : List.lookup "Power" d <;> cases hA : List.lookup "ApparentPower" d <;>
    first
    | rfl
    | (exfalso; rcases h with h | h <;> simp_all)

lemma cosphiExtend_eq_nil (d : List (String × ℚ)) :
    cosphiExtend d = [] ↔ d = [] := by
  unfold cosphiExtend
  cases hP : List.lookup "Power" d with
  | none => cases hA : List.lookup "ApparentPower" d <;> exact Iff.rfl
  | some p =>
    have hd : d ≠ [] := by rintro rfl; simp [List.lookup] at hP
    cases hA : List.lookup "ApparentPower" d with
    | none => exact Iff.rfl
    | some a =>
      dsimp only
      split_ifs with h0
      · simp [List.append_eq_nil, hd]
      · exact Iff.rfl

/-- C4: in the metric set of a charging point poll, each voltage, current
and power metric is present exactly when its register read succeeded and
then equals the raw decoded value divided by 1000, and the Import metric
equals the raw decoded 64-bit value unscaled; a failed read leaves the key
absent (lookup yields none), never a zero-filled value. -/
theorem metric_scaling (client : ModbusClient) (base : Nat) :
    List.lookup "Voltage/L1" (chargingPointData client base)
        = (read_u32 client (base + 232)).map (fun (v : ℕ) => (v : ℚ) / 1000) ∧
    List.lookup "Voltage/L2" (chargingPointData client base)
        = (read_u32 client (base + 234)).map (fun (v : ℕ) => (v : ℚ) / 1000) ∧
    List.lookup "Voltage/L3" (chargingPointData client base)
        = (read_u32 client (base + 236)).map (fun (v : ℕ) => (v : ℚ) / 1000) ∧
    List.lookup "Current/L1" (chargingPointData client base)
        = (read_u32 client (base + 238)).map (fun (v : ℕ) => (v : ℚ) / 1000) ∧
    List.lookup "Current/L2" (chargingPointData client base)
        = (read_u32 client (base + 240)).map (fun (v : ℕ) => (v : ℚ) / 1000) ∧
    List.lookup "Current/L3" (chargingPointData client base)
        = (read_u32 client (base + 242)).map (fun (v : ℕ) => (v : ℚ) / 1000) ∧
    List.lookup "Power" (chargingPointData client base)
        = (read_u32 client (base + 244)).map (fun (v : ℕ) => (v : ℚ) / 1000) ∧
    List.lookup "ReactivePower" (chargingPointData client base)
        = (read_i32 client (base + 246)).map (fun (v : ℤ) => (v : ℚ) / 1000) ∧
    List.lookup "ApparentPower" (chargingPointData client base)
        = (read_u32 client (base + 248)).map (fun (v : ℕ) => (v : ℚ) / 1000) ∧
    List.lookup "Import" (chargingPointData client base)
        = (read_u64 client (base + 250)).map (fun (v : ℕ) => (v : ℚ)) := by
  refine ⟨?_, ?_, ?_, ?_, ?_, ?_, ?_, ?_, ?_, ?_⟩
  · exact (lookup_cosphiExtend_ne _ _ (by decide)).trans (lookup_body_voltage_l1 client base)
  · exact (lookup_cosphiExtend_ne _ _ (by decide)).trans (lookup_body_voltage_l2 client base)
  · exact (lookup_cosphiExtend_ne _ _ (by decide)).trans (lookup_body_voltage_l3 client base)
  · exact (lookup_cosphiExtend_ne _ _ (by decide)).trans (lookup_body_current_l1 client base)
  · exact (lookup_cosphiExtend_ne _ _ (by decide)).trans (lookup_body_current_l2 client base)
  · exact (lookup_cosphiExtend_ne _ _ (by decide)).trans (lookup_body_current_l3 client base)
  · exact (lookup_cosphiExtend_ne _ _ (by decide)).trans (lookup_body_power client base)
  · exact (lookup_cosphiExtend_ne _ _ (by decide)).trans (lookup_body_reactive client base)
  · exact (lookup_cosphiExtend_ne _ _ (by decide)).trans (lookup_body_apparent client base)
  · exact (lookup_cosphiExtend_ne _ _ (by decide)).trans (lookup_body_import client base)

/-- C3: the derived power factor.  Cosphi is in the metric set exactly when
Power and ApparentPower are both present and the ApparentPower value is
strictly positive, and then it equals their quotient. -/
theorem cosphi_rule (client : ModbusClient) (base : Nat) :
    ((List.lookup "Cosphi" (chargingPointData client base)).isSome ↔
      (∃ p, List.lookup "Power" (chargingPointData client base) = some p) ∧
      (∃ a, List.lookup "ApparentPower" (chargingPointData client base) = some a ∧
        0 < a)) ∧
    (∀ p a, List.lookup "Power" (chargingPointData client base) = some p →
      List.lookup "ApparentPower" (chargingPointData client base) = some a →
      0 < a →
      List.lookup "Cosphi" (chargingPointData client base) = some (p / a)) := by
  have hP : List.lookup "Power" (chargingPointData client base)
      = List.lookup "Power" (chargingPointBody client base) :=
    lookup_cosphiExtend_ne _ _ (by decide)
  have hA : List.lookup "ApparentPower" (chargingPointData client base)
      = List.lookup "ApparentPower" (chargingPointBody client base) :=
    lookup_cosphiExtend_ne _ _ (by decide)
  cases hp : List.lookup "Power" (chargingPointBody client base) with
  | none =>
    have hno : List.lookup "Cosphi" (chargingPointData client base) = none := by
      have he : chargingPointData client base = chargingPointBody client base :=
        cosphiExtend_of_none _ (Or.inl hp)
      rw [he, lookup_body_cosphi]
    constructor
    · rw [hno, hP, hp]; simp
    · intro p a hp' _ _; rw [hP, hp] at hp'; cases hp'
  | some p0 =>
    cases ha : List.lookup "ApparentPower" (chargingPointBody client base) with
    | none =>
      have hno : List.lookup "Cosphi" (chargingPointData client base) = none := by
        have he : chargingPointData client base = chargingPointBody client base :=
          cosphiExtend_of_none _ (Or.inr ha)
        rw [he, lookup_body_cosphi]
      constructor
      · rw [hno, hA, ha]; simp
      · intro p a _ ha' _; rw [hA, ha] at ha'; cases ha'
    | some a0 =>
      have hcos : List.lookup "Cosphi" (chargingPointData client base)
          = if 0 < a0 then some (p0 / a0) else none :=
        lookup_cosphiExtend_cosphi (chargingPointBody client base) p0 a0
          (lookup_body_cosphi client base) hp ha
      constructor
      · rw [hcos, hP, hp, hA, ha]
        by_cases h0 : 0 < a0 <;> simp [h0]
      · intro p a hp' ha' h0
        rw [hP, hp] at hp'
        rw [hA, ha] at ha'
        obtain rfl : p0 = p := Option.some.inj hp'
        obtain rfl : a0 = a := Option.some.inj ha'
        rw [hcos, if_pos h0]

/-- Client for the Cosphi witness: raw power 7000, raw apparent power
10000, everything else failing. -/
def cosClient : ModbusClient :=
  { read := fun addr count =>
      if count = 2 then
        if addr = 1244 then some [0, 7000]
        else if addr = 1248 then some [0, 10000]
        else none
      else none }

/-- Client for the absent-Cosphi example: raw apparent power 0. -/
def cos0Client : ModbusClient :=
  { read := fun addr count =>
      if count = 2 then
        if addr = 1244 then some [0, 7000]
        else if addr = 1248 then some [0, 0]
        else none
      else none }

theorem cosphi_rule_witness :
    List.lookup "Cosphi" (chargingPointData cosClient 1000) = some (7 / 10) ∧
    List.lookup "Cosphi" (chargingPointData cos0Client 1000) = none := by
  have hr1 : read_u32 cosClient 1244 = some 7000 := rfl
  have hr2 : read_u32 cosClient 1248 = some 10000 := rfl
  have hp : List.lookup "Power" (chargingPointData cosClient 1000) = some 7 := by
    have he : List.lookup "Power" (chargingPointData cosClient 1000)
        = List.lookup "Power" (chargingPointBody cosClient 1000) :=
      lookup_cosphiExtend_ne _ _ (by decide)
    rw [he, lookup_body_power cosClient 1000, hr1]
    norm_num
  have ha : List.lookup "ApparentPower" (chargingPointData cosClient 1000)
      = some 10 := by
    have he : List.lookup "ApparentPower" (chargingPointData cosClient 1000)
        = List.lookup "ApparentPower" (chargingPointBody cosClient 1000) :=
      lookup_cosphiExtend_ne _ _ (by decide)
    rw [he, lookup_body_apparent cosClient 1000, hr2]
    norm_num
  constructor
  · exact (cosphi_rule cosClient 1000).2 7 10 hp ha (by norm_num)
  · have hr1' : read_u32 cos0Client 1244 = some 7000 := rfl
    have hr2' : read_u32 cos0Client 1248 = some 0 := rfl
    have hp0 : List.lookup "Power" (chargingPointBody cos0Client 1000) = some 7 := by
      rw [lookup_body_power cos0Client 1000, hr1']
      norm_num
    have ha0 : List.lookup "ApparentPower" (chargingPointBody cos0Client 1000)
        = some 0 := by
      rw [lookup_body_apparent cos0Client 1000, hr2']
      norm_num
    have h2 : List.lookup "Cosphi" (chargingPointData cos0Client 1000)
        = if (0 : ℚ) < 0 then some (7 / 0) else none :=
      lookup_cosphiExtend_cosphi (chargingPointBody cos0Client 1000) 7 0
        (lookup_body_cosphi cos0Client 1000) hp0 ha0
    rw [h2]
    norm_num

/-- C5: read_charging_point returns none (no data) exactly when every one
of the ten register reads for the point failed, and on a none result the
main loop performs no publish call for that point. -/
theorem no_data_rule (client : ModbusClient) (base : Nat) :
    (read_charging_point client base = none ↔
      read_u32 client (base + 232) = none ∧ read_u32 client (base + 234) = none ∧
      read_u32 client (base + 236) = none ∧ read_u32 client (base + 238) = none ∧
      read_u32 client (base + 240) = none ∧ read_u32 client (base + 242) = none ∧
      read_u32 client (base + 244) = none ∧ read_i32 client (base + 246) = none ∧
      read_u32 client (base + 248) = none ∧ read_u64 client (base + 250) = none) ∧
    (∀ cp_name, read_charging_point client base = none →
      pointPublish cp_name (read_charging_point client base) = []) := by
  have hbody : chargingPointBody client base = [] ↔
      (read_u32 client (base + 232) = none ∧ read_u32 client (base + 234) = none ∧
       read_u32 client (base + 236) = none ∧ read_u32 client (base + 238) = none ∧
       read_u32 client (base + 240) = none ∧ read_u32 client (base + 242) = none ∧
       read_u32 client (base + 244) = none ∧ read_i32 client (base + 246) = none ∧
       read_u32 client (base + 248) = none ∧ read_u64 client (base + 250) = none) := by
    have e1 : regOffset "voltage_l1" = 232 := rfl
    have e2 : regOffset "voltage_l2" = 234 := rfl
    have e3 : regOffset "voltage_l3" = 236 := rfl
    have e4 : regOffset "current_l1" = 238 := rfl
    have e5 : regOffset "current_l2" = 240 := rfl
    have e6 : regOffset "current_l3" = 242 := rfl
    have e7 : regOffset "power" = 244 := rfl
    have e8 : regOffset "reactive_power" = 246 := rfl
    have e9 : regOffset "apparent_power" = 248 := rfl
    have e10 : regOffset "energy_total" = 250 := rfl
    unfold chargingPointBody
    simp only [List.append_eq_nil, entry_eq_nil, Option.map_eq_none',
      e1, e2, e3, e4, e5, e6, e7, e8, e9, e10, and_assoc]
  have hrcp : read_charging_point client base = none ↔
      chargingPointData client base = [] := by
    simp only [read_charging_point]
    split_ifs with h
    · simp [List.isEmpty_iff.mp h]
    · have hne : chargingPointData client base ≠ [] := by
        intro he; rw [he] at h; exact h rfl
      simp [hne]
  constructor
  · rw [hrcp, show chargingPointData client base = cosphiExtend (chargingPointBody client base) from rfl,
      cosphiExtend_eq_nil, hbody]
  · intro cp_name h
    rw [h]
    rfl

/-- Client whose every read fails, for the no-data witness. -/
def noneClient : ModbusClient := { read := fun _ _ => none }

theorem no_data_rule_witness :
    read_charging_point noneClient 1000 = none ∧
    pointPublish "links" (read_charging_point noneClient 1000) = [] := by
  have h := no_data_rule noneClient 1000
  have h1 : read_charging_point noneClient 1000 = none :=
    h.1.mpr ⟨rfl, rfl, rfl, rfl, rfl, rfl, rfl, rfl, rfl, rfl⟩
  exact ⟨h1, h.2 "links" h1⟩

/-! ### Connection guardian (ensure_connection) -/

/-- Observable actions of ensure_connection: the probe read, closing the
handle, a sleep of so many seconds, a connect attempt. -/
inductive GEvent where
  | probe (ok : Bool)
  | closeHandle
  | sleep (n : Nat)
  | connect (ok : Bool)
deriving DecidableEq

/-- Mutable state threaded through the retry loop: whether the handle is
connected, how many probes and connects happened so far, and the event
trace. -/
structure GState where
  connected : Bool
  probes : Nat
  connects : Nat
  trace : List GEvent
deriving DecidableEq

/-- The for-loop body of ensure_connection, driven by fuel (remaining loop
iterations).  probeOk and connectOk give the outcome of the k-th probe read
and the k-th client.connect() call; an exception during the probe behaves
exactly like an error response, so both are a false outcome. -/
def ensureConnectionGo (probeOk connectOk : Nat → Bool) (maxRetries : Nat) :
    Nat → GState → GState × Bool
  | 0, s => (s, false)
  | fuel + 1, s =>
    let attempt := maxRetries - (fuel + 1)
    let probed :=
      if s.connected then
        let ok := probeOk s.probes
        ({ s with probes := s.probes + 1, trace := s.trace ++ [GEvent.probe ok] }, ok)
      else (s, false)
    if probed.2 then (probed.1, true)
    else
      let s1 := probed.1
      let s2 :=
        if s1.connected then
          { s1 with connected := false, trace := s1.trace ++ [GEvent.closeHandle] }
        else s1
      let s3 := { s2 with trace := s2.trace ++ [GEvent.sleep 1] }
      let ok := connectOk s3.connects
      let s4 := { s3 with
        connects := s3.connects + 1
        connected := ok
        trace := s3.trace ++ [GEvent.connect ok] }
      if ok then (s4, true)
      else
        let s5 :=
          if attempt < maxRetries - 1 then
            { s4 with trace := s4.trace ++ [GEvent.sleep (2 ^ attempt)] }
          else s4
        ensureConnectionGo probeOk connectOk maxRetries fuel s5

/-- The simulated pymodbus client seen by ensure_connection. -/
structure ClientSim where
  connected : Bool
  probeOk : Nat → Bool
  connectOk : Nat → Bool

/-- ensure_connection: returns the emitted event trace and the result. -/
def ensure_connection (c : ClientSim) (maxRetries : Nat := 3) :
    List GEvent × Bool :=
  let r := ensureConnectionGo c.probeOk c.connectOk maxRetries maxRetries
    { connected := c.connected, probes := 0, connects := 0, trace := [] }
  (r.1.trace, r.2)

/-- C6: on a dead connection with every reconnect attempt failing, the
guardian with the default maximum of 3 performs exactly three connect
attempts, each preceded by the fixed 1-second delay (and by a close of the
handle when it was still open), sleeps the exponential backoff 2^0 and 2^1
after the first and second failed attempt, none after the last, and then
reports failure. -/
theorem guardian_three_attempts (c : ClientSim)
    (hconn : ∀ k, c.connectOk k = false) :
    (c.connected = false →
      ensure_connection c 3 =
        ([GEvent.sleep 1, GEvent.connect false, GEvent.sleep 1,
          GEvent.sleep 1, GEvent.connect false, GEvent.sleep 2,
          GEvent.sleep 1, GEvent.connect false], false)) ∧
    (c.connected = true → (∀ k, c.probeOk k = false) →
      ensure_connection c 3 =
        ([GEvent.probe false, GEvent.closeHandle,
          GEvent.sleep 1, GEvent.connect false, GEvent.sleep 1,
          GEvent.sleep 1, GEvent.connect false, GEvent.sleep 2,
          GEvent.sleep 1, GEvent.connect false], false)) := by
  constructor
  · intro hc
    simp [ensure_connection, ensureConnectionGo, hc, hconn]
  · intro hc hp
    simp [ensure_connection, ensureConnectionGo, hc, hconn, hp]

/-- Witness client: dead connection, probes and connects always failing. -/
def deadClient : ClientSim :=
  { connected := false, probeOk := fun _ => false, connectOk := fun _ => false }

theorem guardian_three_attempts_witness :
    ensure_connection deadClient 3 =
      ([GEvent.sleep 1, GEvent.connect false, GEvent.sleep 1,
        GEvent.sleep 1, GEvent.connect false, GEvent.sleep 2,
        GEvent.sleep 1, GEvent.connect false], false) :=
  (guardian_three_attempts deadClient (fun _ => rfl)).1 rfl

/-! ### Orchestrator failure counter -/

lemma mainCycle_counter_lt (n : Nat) (g : Bool)
    (results : List (String × Option (List (String × ℚ))))
    (h : n < max_consecutive_failures) :
    (mainCycle n g results).counter < max_consecutive_failures := by
  simp only [mainCycle, max_consecutive_failures] at h ⊢
  split_ifs <;> simp <;> omega

lemma foldl_cycleFold_lt
    (steps : List (Bool × List (String × Option (List (String × ℚ))))) :
    ∀ acc : Nat × Nat, acc.1 < max_consecutive_failures →
      (List.foldl cycleFold acc steps).1 < max_consecutive_failures := by
  induction steps with
  | nil => intro acc h; simpa using h
  | cons s t ih =>
    intro acc h
    rw [List.foldl_cons]
    exact ih _ (mainCycle_counter_lt _ _ _ h)

/-- C7: the consecutive-failure counter goes up by one on a cycle where no
point yields data, resets to zero as soon as one point yields data, and on
reaching the threshold 5 the loop force-closes the connection and resets
the counter to zero in the same cycle; over a run of five straight
all-failed cycles there is exactly one forced close, and the stored counter
never reaches the threshold again (so it never exceeds it). -/
theorem failure_counter_policy (n : Nat)
    (results : List (String × Option (List (String × ℚ))))
    (hn : n < max_consecutive_failures) :
    ((∀ r ∈ results, dataTruthy r.2 = false) →
      (n + 1 = 5 → (mainCycle n true results).counter = 0 ∧
        (mainCycle n true results).forcedClose = true) ∧
      (n + 1 < 5 → (mainCycle n true results).counter = n + 1 ∧
        (mainCycle n true results).forcedClose = false)) ∧
    ((∃ r ∈ results, dataTruthy r.2 = true) →
      (mainCycle n true results).counter = 0 ∧
      (mainCycle n true results).forcedClose = false) ∧
    (mainCycle n true results).counter < max_consecutive_failures ∧
    (∀ steps, (runCounter steps).1 < max_consecutive_failures) ∧
    runCounter (List.replicate 5 (true, [("links", none), ("rechts", none)]))
      = (0, 1) := by
  refine ⟨?_, ?_, mainCycle_counter_lt n true results hn,
    fun steps => foldl_cycleFold_lt steps (0, 0)
      (by norm_num [max_consecutive_failures]),
    by decide⟩
  · intro hall
    have hsucc : results.any (fun nr => dataTruthy nr.2) = false := by
      simp only [List.any_eq_false]
      intro x hx
      simp [hall x hx]
    constructor
    · intro h5
      simp [mainCycle, hsucc, max_consecutive_failures, h5]
    · intro h5
      have hle : ¬ (5 ≤ n + 1) := by omega
      simp [mainCycle, hsucc, max_consecutive_failures, hle]
  · intro hex
    have hsucc : results.any (fun nr => dataTruthy nr.2) = true := by
      simp only [List.any_eq_true]
      rcases hex with ⟨r, hr, h⟩
      exact ⟨r, hr, h⟩
    simp [mainCycle, hsucc]

theorem failure_counter_policy_witness :
    (mainCycle 4 true [("links", none), ("rechts", none)]).counter = 0 ∧
    (mainCycle 4 true [("links", none), ("rechts", none)]).forcedClose = true := by
  have h := failure_counter_policy 4 [("links", none), ("rechts", none)]
    (by norm_num [max_consecutive_failures])
  exact (h.1 (by decide)).1 rfl

/-! ### Publisher -/

/-- Client for the end-to-end scenario: registers 1232 and 1233 hold
0x0003 and 0x7A50, every other read fails. -/
def e2eClient : ModbusClient :=
  { read := fun addr count =>
      if addr = 1232 ∧ count = 2 then some [3, 31312] else none }

/-- C8 counterexample: the registers [0x0003, 0x7A50] named in the claim
decode to 227920, not to the claimed 230480 (0x37A50 = 227920 while
230480 = 0x38450), so the claimed end-to-end numbers do not match the
decoder. -/
theorem publish_topic_counterexample :
    read_u32 e2eClient 1232 = some 227920 ∧ (227920 : Nat) ≠ 230480 :=
  ⟨rfl, by norm_num⟩

/-- C8 amended: every metric entry is published under
prefix/display-name/label with the value as payload; in the end-to-end
scenario the registers [0x0003, 0x7A50] at 1232 decode to u32 = 227920,
yield Voltage/L1 = 227.92 and produce exactly one message on topic
klskmp/metering/blitz/links/Voltage/L1 with payload 227.92. -/
theorem publish_topic (cp_name : String) (data : List (String × ℚ)) :
    (∀ k v, (k, v) ∈ data →
      Message.mk (MQTT_TOPIC_ROOT ++ "/" ++ cp_name ++ "/" ++ k) v false
        ∈ publish_data cp_name data) ∧
    read_u32 e2eClient 1232 = some 227920 ∧
    pointPublish "links" (read_charging_point e2eClient 1000)
      = [Message.mk "klskmp/metering/blitz/links/Voltage/L1" (227.92 : ℚ) false] := by
  refine ⟨?_, rfl, ?_⟩
  · intro k v h
    unfold publish_data
    exact List.mem_map.mpr ⟨(k, v), h, rfl⟩
  · have o1 : (1000 + regOffset "voltage_l1" : Nat) = 1232 := rfl
    have o2 : (1000 + regOffset "voltage_l2" : Nat) = 1234 := rfl
    have o3 : (1000 + regOffset "voltage_l3" : Nat) = 1236 := rfl
    have o4 : (1000 + regOffset "current_l1" : Nat) = 1238 := rfl
    have o5 : (1000 + regOffset "current_l2" : Nat) = 1240 := rfl
    have o6 : (1000 + regOffset "current_l3" : Nat) = 1242 := rfl
    have o7 : (1000 + regOffset "power" : Nat) = 1244 := rfl
    have o8 : (1000 + regOffset "reactive_power" : Nat) = 1246 := rfl
    have o9 : (1000 + regOffset "apparent_power" : Nat) = 1248 := rfl
    have o10 : (1000 + regOffset "energy_total" : Nat) = 1250 := rfl
    have r1 : read_u32 e2eClient 1232 = some 227920 := rfl
    have r2 : read_u32 e2eClient 1234 = none := rfl
    have r3 : read_u32 e2eClient 1236 = none := rfl
    have r4 : read_u32 e2eClient 1238 = none := rfl
    have r5 : read_u32 e2eClient 1240 = none := rfl
    have r6 : read_u32 e2eClient 1242 = none := rfl
    have r7 : read_u32 e2eClient 1244 = none := rfl
    have r8 : read_i32 e2eClient 1246 = none := rfl
    have r9 : read_u32 e2eClient 1248 = none := rfl
    have r10 : read_u64 e2eClient 1250 = none := rfl
    have hbody : chargingPointBody e2eClient 1000
        = [("Voltage/L1", (227920 : ℚ) / 1000)] := by
      unfold chargingPointBody
      rw [o1, o2, o3, o4, o5, o6, o7, o8, o9, o10,
        r1, r2, r3, r4, r5, r6, r7, r8, r9, r10]
      norm_num [entry]
    have hdata : chargingPointData e2eClient 1000
        = [("Voltage/L1", (227920 : ℚ) / 1000)] := by
      unfold chargingPointData
      rw [hbody, cosphiExtend_of_none _ (Or.inl (by simp [List.lookup]))]
    have hrcp : read_charging_point e2eClient 1000
        = some [("Voltage/L1", (227920 : ℚ) / 1000)] := by
      simp [read_charging_point, hdata]
    rw [hrcp]
    simp only [pointPublish, publish_data, List.isEmpty_cons, List.map_cons,
      List.map_nil, if_neg]
    norm_num [MQTT_TOPIC_ROOT]
    rfl

theorem publish_topic_witness :
    Message.mk (MQTT_TOPIC_ROOT ++ "/" ++ "links" ++ "/" ++ "Power") 1 false
      ∈ publish_data "links" [("Power", (1 : ℚ))] :=
  (publish_topic "links" [("Power", (1 : ℚ))]).1 "Power" 1 (by decide)

/-- C9 counterexample: a concrete publish emits its message with the retain
flag false; no configuration input exists that could make it true, the
flag is a literal in the publish call. -/
theorem retain_flag_counterexample :
    (publish_data "links" [("Power", (1 : ℚ))]).map Message.retain = [false] := rfl

/-- C9 amended: the delivery mode is hard-coded, not configurable: every
message the publisher emits has retain = false. -/
theorem retain_flag_hardcoded (cp_name : String) (data : List (String × ℚ)) :
    ∀ m ∈ publish_data cp_name data, m.retain = false := by
  intro m hm
  unfold publish_data at hm
  rcases List.mem_map.mp hm with ⟨kv, _, rfl⟩
  rfl

theorem retain_flag_hardcoded_witness :
    (Message.mk "klskmp/metering/blitz/links/Power" 1 false).retain = false :=
  retain_flag_hardcoded "links" [("Power", (1 : ℚ))] _ (by decide)

/-! ### Sign invariants of the metric set -/

lemma mem_entry (x : String × ℚ) (k : String) (v : Option ℚ)
    (h : x ∈ entry k v) : ∃ c, v = some c ∧ x = (k, c) := by
  cases v with
  | none => simp [entry] at h
  | some c =>
    simp only [entry, List.mem_singleton] at h
    exact ⟨c, rfl, h⟩

lemma mem_cosphiExtend (d : List (String × ℚ)) (x : String × ℚ)
    (hx : x ∈ cosphiExtend d) :
    x ∈ d ∨ ∃ p a, List.lookup "Power" d = some p ∧
      List.lookup "ApparentPower" d = some a ∧ 0 < a ∧ x = ("Cosphi", p / a) := by
  unfold cosphiExtend at hx
  cases hP : List.lookup "Power" d with
  | none =>
    cases hA : List.lookup "ApparentPower" d <;> rw [hP, hA] at hx <;>
      exact Or.inl hx
  | some p =>
    cases hA : List.lookup "ApparentPower" d with
    | none => rw [hP, hA] at hx; exact Or.inl hx
    | some a =>
      rw [hP, hA] at hx
      have hx' : x ∈ (if 0 < a then d ++ [("Cosphi", p / a)] else d) := hx
      by_cases h0 : 0 < a
      · rw [if_pos h0] at hx'
        rcases List.mem_append.mp hx' with h | h
        · exact Or.inl h
        · right
          refine ⟨p, a, rfl, rfl, h0, ?_⟩
          exact List.mem_singleton.mp h
      · rw [if_neg h0] at hx'
        exact Or.inl hx'

lemma mem_cosphiExtend_of_mem (d : List (String × ℚ)) (x : String × ℚ)
    (h : x ∈ d) : x ∈ cosphiExtend d := by
  unfold cosphiExtend
  cases hP : List.lookup "Power" d with
  | none => cases hA : List.lookup "ApparentPower" d <;> exact h
  | some p =>
    cases hA : List.lookup "ApparentPower" d with
    | none => exact h
    | some a =>
      dsimp only
      split_ifs with h0
      · exact List.mem_append_left _ h
      · exact h

lemma lookup_mem (k : String) (v : ℚ) (l : List (String × ℚ))
    (h : List.lookup k l = some v) : (k, v) ∈ l := by
  induction l with
  | nil => simp [List.lookup] at h
  | cons p t ih =>
    rcases p with ⟨k', c⟩
    by_cases hb : k = k'
    · subst hb
      simp only [List.lookup, beq_self_eq_true] at h
      obtain rfl : c = v := Option.some.inj h
      exact List.mem_cons_self _ _
    · have hbf : (k == k') = false := beq_eq_false_iff_ne.mpr hb
      simp only [List.lookup, hbf] at h
      exact List.mem_cons_of_mem _ (ih h)

/-- On a successful signed read the value is a 32-bit two's-complement
integer: the range guard inside read_i32 forces the unsigned pattern below
2^32 and toI32 maps that range onto [-2^31, 2^31). -/
lemma read_i32_range (client : ModbusClient) (address : Nat) (i : Int)
    (h : read_i32 client address = some i) : -(2 ^ 31) ≤ i ∧ i < 2 ^ 31 := by
  unfold read_i32 at h
  cases hr : client.read address 2 with
  | none => rw [hr] at h; cases h
  | some regs =>
    rw [hr] at h
    dsimp only at h
    cases h0 : regs.get? 0 with
    | none =>
      cases h1 : regs.get? 1 <;> rw [h0, h1] at h <;> simp at h
    | some r0 =>
      cases h1 : regs.get? 1 with
      | none => rw [h0, h1] at h; simp at h
      | some r1 =>
        rw [h0, h1] at h
        have h' : (if (r0 <<< 16) ||| r1 < 2 ^ 32
            then some (toI32 ((r0 <<< 16) ||| r1)) else none) = some i := h
        by_cases hu : (r0 <<< 16) ||| r1 < 2 ^ 32
        · rw [if_pos hu] at h'
          obtain rfl : toI32 ((r0 <<< 16) ||| r1) = i := Option.some.inj h'
          unfold toI32
          by_cases hc : (r0 <<< 16) ||| r1 < 2 ^ 31
          · rw [if_pos hc]
            constructor <;> omega
          · rw [if_neg hc]
            constructor <;> omega
        · rw [if_neg hu] at h'
          cases h'

/-- C10: every metric value other than ReactivePower is nonnegative
(voltages, currents, powers and energy decode unsigned, and Cosphi is a
quotient of a nonnegative by a positive value), while ReactivePower,
decoded signed, ranges over [-2^31/1000, 2^31/1000). -/
theorem metric_signs (client : ModbusClient) (base : Nat)
    (hreg : ∀ addr count regs, client.read addr count = some regs →
      ∀ r ∈ regs, r < 2 ^ 16) :
    ∀ k v, (k, v) ∈ chargingPointData client base →
      (k ≠ "ReactivePower" → 0 ≤ v) ∧
      (k = "ReactivePower" →
        -(2 ^ 31 : ℚ) / 1000 ≤ v ∧ v < (2 ^ 31 : ℚ) / 1000) := by
  intro k v hkv
  rcases mem_cosphiExtend _ _ hkv with hmem | ⟨p, a, hPl, hAl, h0, heq⟩
  · unfold chargingPointBody at hmem
    simp only [List.mem_append] at hmem
    rcases hmem with ((((((((h | h) | h) | h) | h) | h) | h) | h) | h) | h
    all_goals rcases mem_entry _ _ _ h with ⟨c, hv, hx⟩
    all_goals injection hx with hk hv'
    all_goals subst hk
    all_goals subst hv'
    all_goals first
      | (rcases Option.map_eq_some'.mp hv with ⟨n, _, rfl⟩
         exact ⟨fun _ => by positivity, fun hk' => absurd hk' (by decide)⟩)
      | (rcases Option.map_eq_some'.mp hv with ⟨i, hi, rfl⟩
         have hb := read_i32_range _ _ _ hi
         exact ⟨fun hk' => absurd rfl hk', fun _ =>
           ⟨(div_le_div_iff_of_pos_right (by norm_num : (0 : ℚ) < 1000)).mpr
              (by exact_mod_cast hb.1),
            (div_lt_div_iff_of_pos_right (by norm_num : (0 : ℚ) < 1000)).mpr
              (by exact_mod_cast hb.2)⟩⟩)
  · injection heq with hk hv'
    subst hk; subst hv'
    constructor
    · intro _
      rw [lookup_body_power] at hPl
      rcases Option.map_eq_some'.mp hPl with ⟨n, _, rfl⟩
      exact div_nonneg (by positivity) (le_of_lt h0)
    · intro hk'
      exact absurd hk' (by decide)

/-- Client for the sign-invariant witness: the reactive power registers
hold the pattern 0x8000 0x0000, the most negative signed 32-bit value. -/
def negClient : ModbusClient :=
  { read := fun addr count =>
      if addr = 1246 ∧ count = 2 then some [32768, 0] else none }

theorem metric_signs_witness :
    ("ReactivePower", -(2 ^ 31 : ℚ) / 1000) ∈ chargingPointData negClient 1000 ∧
    -(2 ^ 31 : ℚ) / 1000 ≤ -(2 ^ 31 : ℚ) / 1000 ∧
    -(2 ^ 31 : ℚ) / 1000 < (2 ^ 31 : ℚ) / 1000 := by
  have hreg : ∀ addr count regs, negClient.read addr count = some regs →
      ∀ r ∈ regs, r < 2 ^ 16 := by
    intro addr count regs h r hr
    simp only [negClient] at h
    by_cases hc : addr = 1246 ∧ count = 2
    · rw [if_pos hc] at h
      injection h with h'
      subst h'
      simp only [List.mem_cons, List.mem_singleton] at hr
      rcases hr with rfl | rfl | hr
      · norm_num
      · norm_num
      · simp at hr
    · rw [if_neg hc] at h
      cases h
  have hv : read_i32 negClient 1246 = some (-(2 ^ 31)) := by decide
  have hlook : List.lookup "ReactivePower" (chargingPointBody negClient 1000)
      = some (-(2 ^ 31 : ℚ) / 1000) := by
    rw [lookup_body_reactive, hv]
    simp only [Option.map_some']
    push_cast
    norm_num
  have hmem : ("ReactivePower", -(2 ^ 31 : ℚ) / 1000)
      ∈ chargingPointData negClient 1000 :=
    mem_cosphiExtend_of_mem _ _ (lookup_mem _ _ _ hlook)
  exact ⟨hmem, (metric_signs negClient 1000 hreg "ReactivePower" _ hmem).2 rfl⟩

end CharX
